import Mathlib

/-!
# Verification of `assert_all_eq` (Rust crate), shallow embedding

This file embeds the runtime semantics of the `assert_all_eq!` and
`debug_assert_all_eq!` macros from `src/lib.rs` and proves the behavioural
properties stated in the crate's specification.

Modelling conventions:
* A Rust panic is modelled as `Except.error` carrying the panic message; normal
  return is `Except.ok ()`.
* `PartialEq` on the compared type is modelled by an arbitrary boolean relation
  `veq : α → α → Bool`; `Debug` rendering (`{:?}`) by an arbitrary function
  `dbg : α → String`.
* `format!("{}", i)` on a `usize` index is modelled by `Nat.repr`.
* Expression evaluation order and side effects are modelled, where a claim
  needs them, by state-passing thunks `σ → α × σ` (one per argument
  expression), and the comparison-counting `PartialEq` of the crate's own
  `minimum_comparisons` test by values paired with a call counter.

A note on the source: in both N-ary arms of `assert_all_eq!` the anchor is
bound by `match &$first { a => ... }` and the comparison reads `*a ==
*right_val`, but the failure call is written `not_eq(left_val, right_val, b)`
(resp. `not_eq(left_val, right_val, b, &f())`), where no binding named
`left_val` exists in the expansion. The only binding of the anchor in scope is
`a`, the diagnostic format prints its first argument at position `0`, and the
crate's tests (`three_true`, `three_false`, ...) require these arms to expand.
The development below therefore models the evidently intended reading
`left_val = a` (the anchor); the slip itself is reported with the diagnostic
claim about the failure path.
-/

namespace AssertAllEq

/-- `" ".repeat(n)`: a run of `n` spaces. -/
def padStr (n : Nat) : String :=
  String.mk (List.replicate n ' ')

/-- The first line of the panic message of `fn not_eq`:
`"equality assertion failed at position 0 and {i}"`. -/
def not_eq_header (i : Nat) : String :=
  "equality assertion failed at position 0 and " ++ Nat.repr i

/-- `fn not_eq<A, B>(left: A, right: B, i: usize)` from the plain N-ary arm:
builds the three-line panic message. `left` and `right` are passed here
already rendered by `Debug` (`{:?}`); `index = format!("{}", i)`,
`pad = " ".repeat(index.len())`. -/
def not_eq (left right : String) (i : Nat) : String :=
  not_eq_header i ++ "\n" ++
    padStr (Nat.repr i).length ++ "0: `" ++ left ++ "`,\n " ++
    Nat.repr i ++ ": `" ++ right ++ "`"

/-- `fn not_eq<A, B>(left: A, right: B, i: usize, f: &str)` from the
message-carrying N-ary arm: same three lines, with `": {message}"` appended
after the closing backtick of the mismatched element's line. -/
def not_eq_fmt (left right : String) (i : Nat) (message : String) : String :=
  not_eq_header i ++ "\n" ++
    padStr (Nat.repr i).length ++ "0: `" ++ left ++ "`,\n " ++
    Nat.repr i ++ ": `" ++ right ++ "`: " ++ message

/-- The repetition body of the plain N-ary arm of `assert_all_eq!`:
`b` starts at `0`; each iteration does `b += 1`, evaluates the next
expression, and panics via `not_eq` if `!(*a == *right_val)`.
(The source writes `not_eq(left_val, right_val, b)` with `left_val` unbound;
the anchor binding `a` is modelled as the intended first argument, see the
file header.) -/
def cmpLoop (dbg : α → String) (veq : α → α → Bool) (a : α) :
    List α → Nat → Except String Unit
  | [], _ => .ok ()
  | x :: xs, b =>
    let b := b + 1
    if !(veq a x) then .error (not_eq (dbg a) (dbg x) b)
    else cmpLoop dbg veq a xs b

/-- The repetition body of the message-carrying N-ary arm. `f` models the
closure `let f = || format!($($arg)+);` constructed once per invocation; the
returned `Nat` counts how many times `f` is invoked (it is invoked only as
`&f()` at the `not_eq` call site). -/
def cmpLoopMsg (dbg : α → String) (veq : α → α → Bool) (f : Unit → String)
    (a : α) : List α → Nat → Except String Unit × Nat
  | [], _ => (.ok (), 0)
  | x :: xs, b =>
    let b := b + 1
    if !(veq a x) then (.error (not_eq_fmt (dbg a) (dbg x) b (f ())), 1)
    else cmpLoopMsg dbg veq f a xs b

/-- Modelled from the spec: the underlying two-value equality primitive
(`std::assert_eq!`, an external collaborator "treated as a black box:
compare two values for equality; abort the current test with a message on
mismatch"). Its diagnostic embeds the debug renderings of both operands and,
when present, the formatted custom message. -/
def assert_eq_diag (left right : String) (msg : Option String) : String :=
  "assertion failed: `(left == right)`\n  left: `" ++ left ++
    "`,\n right: `" ++ right ++ "`" ++
    (match msg with
     | none => ""
     | some m => ": " ++ m)

/-- Modelled from the spec: `std::assert_eq!(l, r)` / `std::assert_eq!(l, r, args)`:
one equality check; panic with `assert_eq_diag` on mismatch. -/
def assert_eq (dbg : α → String) (veq : α → α → Bool) (l r : α)
    (msg : Option String) : Except String Unit :=
  if !(veq l r) then .error (assert_eq_diag (dbg l) (dbg r) msg)
  else .ok ()

/-- The canonical (separator-free) dispatch of `assert_all_eq!` over at least
two already-evaluated expressions: exactly two expressions go to
`std::assert_eq!`; three or more go to the N-ary comparison arm (with the
message closure `|| format!($($arg)+)` already rendered to `m` for the
message case, since only its one invocation on the failure path is at stake
here; laziness itself is proved on `cmpLoopMsg`). -/
def assert_all_eq (dbg : α → String) (veq : α → α → Bool)
    (first second : α) (rest : List α) (msg : Option String) :
    Except String Unit :=
  match rest, msg with
  | [], none => assert_eq dbg veq first second none
  | [], some m => assert_eq dbg veq first second (some m)
  | _ :: _, none => cmpLoop dbg veq first (second :: rest) 0
  | _ :: _, some m =>
    (cmpLoopMsg dbg veq (fun _ => m) first (second :: rest) 0).1

/-- Trailing separator of an invocation, before the optional `; message`:
the macro accepts none, `,`, `;`, and `,;`. -/
inductive Sep where
  | none
  | comma
  | semi
  | commaSemi
deriving DecidableEq

/-- The grammar-level arms of `assert_all_eq!`: each accepted
trailing-separator arm re-expands to the canonical form (the source arms
literally recurse as `assert_all_eq!($first $( ,$x )+)` resp.
`assert_all_eq!($first $( ,$x )+; $($arg)+)`); a custom message is only
accepted after `;` or `,;`. `Option.none` is a parse-time rejection. -/
def assert_all_eq_sep (dbg : α → String) (veq : α → α → Bool)
    (first second : α) (rest : List α) :
    Sep → Option String → Option (Except String Unit)
  | Sep.none, Option.none =>
    some (assert_all_eq dbg veq first second rest Option.none)
  | Sep.comma, Option.none =>
    some (assert_all_eq dbg veq first second rest Option.none)
  | Sep.semi, Option.none =>
    some (assert_all_eq dbg veq first second rest Option.none)
  | Sep.commaSemi, Option.none =>
    some (assert_all_eq dbg veq first second rest Option.none)
  | Sep.semi, some m =>
    some (assert_all_eq dbg veq first second rest (some m))
  | Sep.commaSemi, some m =>
    some (assert_all_eq dbg veq first second rest (some m))
  | Sep.none, some _ => none
  | Sep.comma, some _ => none

/-- The N-ary comparison arm with expressions as state-passing thunks
(`match &$x { right_val => ... }` evaluates the next expression exactly when
its iteration of the repetition is reached). Returns the mismatch triple
`(i, anchor, e_i)` (`none` on success) and the final state. -/
def runTailEff (veq : α → α → Bool) (a : α) :
    List (σ → α × σ) → σ → Nat → Option (Nat × α × α) × σ
  | [], s, _ => (none, s)
  | e :: es, s, b =>
    let b := b + 1
    let p := e s
    if !(veq a p.1) then (some (b, a, p.1), p.2)
    else runTailEff veq a es p.2 b

/-- `assert_all_eq!` (N-ary arm) over thunks: `match &$first` evaluates the
anchor once, then the tail is walked by `runTailEff`. -/
def assert_all_eq_eff (veq : α → α → Bool) (e0 : σ → α × σ)
    (es : List (σ → α × σ)) (s : σ) : Option (Nat × α × α) × σ :=
  let p := e0 s
  runTailEff veq p.1 es p.2 0

/-- `debug_assert_all_eq!`:
`if cfg!(debug_assertions) { assert_all_eq!($($arg)*); }` — same arguments,
forwarded unchanged when the flag is on, a no-op otherwise. -/
def debug_assert_all_eq_eff (debugAssertions : Bool) (veq : α → α → Bool)
    (e0 : σ → α × σ) (es : List (σ → α × σ)) (s : σ) :
    Option (Nat × α × α) × σ :=
  if debugAssertions then assert_all_eq_eff veq e0 es s
  else (none, s)

/-- The N-ary comparison arm instantiated with the instrumented equality of
the crate's `minimum_comparisons` test: each value carries a call counter
(`RefCell<usize>`), and `eq` increments the counters of **both** operands
before comparing the value parts. Returns the mismatch triple, the final
anchor cell, and the final tail cells. -/
def runTailCells (veq : β → β → Bool) (a : β × Nat) :
    List (β × Nat) → Nat → Option (Nat × β × β) × (β × Nat) × List (β × Nat)
  | [], _ => (none, a, [])
  | x :: xs, b =>
    let b := b + 1
    let a' := (a.1, a.2 + 1)
    let x' := (x.1, x.2 + 1)
    if !(veq a.1 x.1) then (some (b, a.1, x.1), a', x' :: xs)
    else
      let r := runTailCells veq a' xs b
      (r.1, r.2.1, x' :: r.2.2)

/-- The general N-ary comparison path instantiated with exactly two
expressions (N = 2): the anchor and a one-element tail. Used to state the
equivalence of the two-value `std::assert_eq!` shortcut with the general
path. -/
def nary_two (dbg : α → String) (veq : α → α → Bool) (a b : α)
    (msg : Option String) : Except String Unit :=
  match msg with
  | none => cmpLoop dbg veq a [b] 0
  | some m => (cmpLoopMsg dbg veq (fun _ => m) a [b] 0).1

/-- `sub` occurs as a contiguous substring of `s`. -/
def ContainsStr (s sub : String) : Prop :=
  ∃ p t, s = p ++ sub ++ t

end AssertAllEq

namespace AssertAllEq

/-! ## Helper lemmas -/

theorem padStr_length (n : Nat) : (padStr n).length = n := by
  simp [padStr, String.length]

theorem padStr_spaces (n : Nat) : ∀ c ∈ (padStr n).data, c = ' ' := by
  intro c hc
  simpa [padStr] using List.eq_of_mem_replicate hc

theorem not_eq_fmt_append (l r : String) (i : Nat) (m : String) :
    not_eq_fmt l r i m = not_eq l r i ++ ": " ++ m := by
  simp only [not_eq_fmt, not_eq, String.append_assoc]
  rw [show ("`: " : String) = "`" ++ ": " from rfl]
  simp only [String.append_assoc]

theorem exceptUnit_cases (r : Except String Unit) :
    r = .ok () ∨ ∃ e, r = .error e := by
  cases r with
  | ok u => cases u; exact .inl rfl
  | error e => exact .inr ⟨e, rfl⟩

theorem cmpLoop_ok_iff (dbg : α → String) (veq : α → α → Bool) (a : α)
    (xs : List α) : ∀ b : Nat,
    (cmpLoop dbg veq a xs b = .ok () ↔ ∀ x ∈ xs, veq a x = true) := by
  induction xs with
  | nil => intro b; simp [cmpLoop]
  | cons x xs ih =>
    intro b
    cases hv : veq a x with
    | false => simp [cmpLoop, hv]
    | true => simp [cmpLoop, hv, ih]

theorem cmpLoopMsg_ok_iff (dbg : α → String) (veq : α → α → Bool)
    (f : Unit → String) (a : α) (xs : List α) : ∀ b : Nat,
    ((cmpLoopMsg dbg veq f a xs b).1 = .ok () ↔ ∀ x ∈ xs, veq a x = true) := by
  induction xs with
  | nil => intro b; simp [cmpLoopMsg]
  | cons x xs ih =>
    intro b
    cases hv : veq a x with
    | false => simp [cmpLoopMsg, hv]
    | true => simp [cmpLoopMsg, hv, ih]

theorem cmpLoopMsg_ok_count (dbg : α → String) (veq : α → α → Bool)
    (f : Unit → String) (a : α) (xs : List α) : ∀ b : Nat,
    (cmpLoopMsg dbg veq f a xs b).1 = .ok () →
    (cmpLoopMsg dbg veq f a xs b).2 = 0 := by
  induction xs with
  | nil => intro b _; rfl
  | cons x xs ih =>
    intro b h
    cases hv : veq a x with
    | false => simp [cmpLoopMsg, hv] at h
    | true =>
      simp only [cmpLoopMsg, hv] at h ⊢
      exact ih (b + 1) h

theorem cmpLoopMsg_error_char (dbg : α → String) (veq : α → α → Bool)
    (f : Unit → String) (a : α) (xs : List α) : ∀ (b : Nat) (e : String),
    (cmpLoopMsg dbg veq f a xs b).1 = .error e →
    (cmpLoopMsg dbg veq f a xs b).2 = 1 ∧
      ∃ i x, e = not_eq_fmt (dbg a) (dbg x) i (f ()) := by
  induction xs with
  | nil => intro b e h; simp [cmpLoopMsg] at h
  | cons x xs ih =>
    intro b e h
    cases hv : veq a x with
    | false =>
      simp [cmpLoopMsg, hv] at h ⊢
      exact ⟨b + 1, x, h.symm⟩
    | true =>
      simp only [cmpLoopMsg, hv] at h ⊢
      exact ih (b + 1) e h

theorem runTailEff_append (veq : α → α → Bool) (a : α)
    (es : List (σ → α × σ)) : ∀ (es' : List (σ → α × σ)) (s : σ) (b : Nat),
    (runTailEff veq a es s b).1.isSome = true →
    runTailEff veq a (es ++ es') s b = runTailEff veq a es s b := by
  induction es with
  | nil => intro es' s b h; simp [runTailEff] at h
  | cons e es ih =>
    intro es' s b h
    cases hv : veq a (e s).1 with
    | false => simp [runTailEff, hv]
    | true =>
      simp only [runTailEff, hv] at h ⊢
      simp only [Bool.not_true] at h ⊢
      exact ih es' (e s).2 (b + 1) h

theorem runTailCells_values (veq : β → β → Bool) (xs : List (β × Nat)) :
    ∀ (a : β × Nat) (b : Nat),
    (runTailCells veq a xs b).2.1.1 = a.1 ∧
    (runTailCells veq a xs b).2.2.map Prod.fst = xs.map Prod.fst ∧
    (runTailCells veq a xs b).2.2.length = xs.length := by
  induction xs with
  | nil => intro a b; exact ⟨rfl, rfl, rfl⟩
  | cons x xs ih =>
    intro a b
    cases hv : veq a.1 x.1 with
    | false => simp [runTailCells, hv]
    | true =>
      have := ih (a.1, a.2 + 1) (b + 1)
      simp only [runTailCells, hv] at *
      simp_all

theorem runTailCells_counts (veq : β → β → Bool) (xs : List (β × Nat)) :
    ∀ (a : β × Nat) (b : Nat),
    (runTailCells veq a xs b).1 = none →
    (runTailCells veq a xs b).2.1.2 = a.2 + xs.length ∧
    (runTailCells veq a xs b).2.2.map Prod.snd = xs.map (fun x => x.2 + 1) := by
  induction xs with
  | nil => intro a b _; exact ⟨rfl, rfl⟩
  | cons x xs ih =>
    intro a b h
    cases hv : veq a.1 x.1 with
    | false => simp [runTailCells, hv] at h
    | true =>
      have hih := ih (a.1, a.2 + 1) (b + 1)
      simp only [runTailCells, hv] at h ⊢
      simp_all
      omega

theorem sum_map_snd_succ (xs : List (β × Nat)) :
    (xs.map (fun x => x.2 + 1)).sum = (xs.map Prod.snd).sum + xs.length := by
  induction xs with
  | nil => rfl
  | cons x xs ih => simp [ih]; omega

theorem not_eq_contains_left (l r : String) (i : Nat) :
    ContainsStr (not_eq l r i) l :=
  ⟨not_eq_header i ++ "\n" ++ padStr (Nat.repr i).length ++ "0: `",
   "`,\n " ++ Nat.repr i ++ ": `" ++ r ++ "`",
   by simp only [not_eq, String.append_assoc]⟩

theorem not_eq_contains_right (l r : String) (i : Nat) :
    ContainsStr (not_eq l r i) r :=
  ⟨not_eq_header i ++ "\n" ++ padStr (Nat.repr i).length ++ "0: `" ++ l ++
     "`,\n " ++ Nat.repr i ++ ": `",
   "`",
   by simp only [not_eq, String.append_assoc]⟩

theorem not_eq_fmt_contains_left (l r : String) (i : Nat) (m : String) :
    ContainsStr (not_eq_fmt l r i m) l :=
  ⟨not_eq_header i ++ "\n" ++ padStr (Nat.repr i).length ++ "0: `",
   "`,\n " ++ Nat.repr i ++ ": `" ++ r ++ "`: " ++ m,
   by simp only [not_eq_fmt, String.append_assoc]⟩

theorem not_eq_fmt_contains_right (l r : String) (i : Nat) (m : String) :
    ContainsStr (not_eq_fmt l r i m) r :=
  ⟨not_eq_header i ++ "\n" ++ padStr (Nat.repr i).length ++ "0: `" ++ l ++
     "`,\n " ++ Nat.repr i ++ ": `",
   "`: " ++ m,
   by simp only [not_eq_fmt, String.append_assoc]⟩

theorem not_eq_fmt_contains_msg (l r : String) (i : Nat) (m : String) :
    ContainsStr (not_eq_fmt l r i m) m :=
  ⟨not_eq_header i ++ "\n" ++ padStr (Nat.repr i).length ++ "0: `" ++ l ++
     "`,\n " ++ Nat.repr i ++ ": `" ++ r ++ "`: ",
   "",
   by simp only [not_eq_fmt, String.append_assoc, String.append_empty]⟩

theorem assert_eq_diag_contains_left (l r : String) (msg : Option String) :
    ContainsStr (assert_eq_diag l r msg) l :=
  ⟨"assertion failed: `(left == right)`\n  left: `",
   "`,\n right: `" ++ r ++ "`" ++
     (match msg with
      | none => ""
      | some m => ": " ++ m),
   by simp only [assert_eq_diag, String.append_assoc]⟩

theorem assert_eq_diag_contains_right (l r : String) (msg : Option String) :
    ContainsStr (assert_eq_diag l r msg) r :=
  ⟨"assertion failed: `(left == right)`\n  left: `" ++ l ++ "`,\n right: `",
   "`" ++
     (match msg with
      | none => ""
      | some m => ": " ++ m),
   by simp only [assert_eq_diag, String.append_assoc]⟩

theorem assert_eq_diag_contains_msg (l r m : String) :
    ContainsStr (assert_eq_diag l r (some m)) m :=
  ⟨"assertion failed: `(left == right)`\n  left: `" ++ l ++ "`,\n right: `" ++
     r ++ "`" ++ ": ",
   "",
   by simp only [assert_eq_diag, String.append_assoc, String.append_empty]⟩

end AssertAllEq

namespace AssertAllEq

/-! ## Claim theorems -/

/-- C1 (intended semantics): at the failing input `assert_all_eq!(1, 1, 2)`
(first mismatch at 1-based tail index 2), the modelled comparison loop — with
the unbound `left_val` of the source read as the anchor binding `a`, the only
coherent reading — aborts with the diagnostic whose header states
"position 0 and 2" and which embeds exactly the debug renderings of the
anchor and the mismatched element. As written, the source itself cannot
produce this (or any) diagnostic: `not_eq(left_val, right_val, b)` names no
binding in scope, so every expansion of the N-ary arm is rejected by the
compiler, contradicting the crate's own tests. -/
theorem intended_diag_at_first_mismatch :
    cmpLoop Nat.repr (fun a b : Nat => a == b) 1 [1, 2] 0 =
      .error (not_eq (Nat.repr 1) (Nat.repr 2) 2) ∧
    not_eq (Nat.repr 1) (Nat.repr 2) 2 =
      "equality assertion failed at position 0 and 2\n 0: `1`,\n 2: `2`" :=
  ⟨rfl, rfl⟩

/-- C2: on a successful run of the N-ary comparison arm over an anchor and a
tail of N-1 cells whose equality increments a counter on both operands per
comparison (the instrumented `PartialEq` of the crate's
`minimum_comparisons` test), the anchor's counter grows by exactly N-1 (one
equality check per tail element, each of the form `anchor == e_i`), every
tail element's counter grows by exactly 1 (never more than one check per
tail element, no all-pairs comparison), and the total increment summed over
all N values is `2*(N-1)`. -/
theorem minimal_comparisons_on_success (veq : β → β → Bool) (a : β × Nat)
    (xs : List (β × Nat)) (h : (runTailCells veq a xs 0).1 = none) :
    (runTailCells veq a xs 0).2.1.2 = a.2 + xs.length ∧
    (runTailCells veq a xs 0).2.2.map Prod.snd = xs.map (fun x => x.2 + 1) ∧
    (runTailCells veq a xs 0).2.1.2 +
        ((runTailCells veq a xs 0).2.2.map Prod.snd).sum =
      a.2 + (xs.map Prod.snd).sum + 2 * xs.length := by
  obtain ⟨h1, h2⟩ := runTailCells_counts veq xs a 0 h
  refine ⟨h1, h2, ?_⟩
  rw [h1, h2, sum_map_snd_succ]
  omega

theorem minimal_comparisons_on_success_witness :
    ((runTailCells (fun a b : Nat => a == b) (1, 0) [(1, 0), (1, 0)] 0).1 =
      none) ∧
    ((runTailCells (fun a b : Nat => a == b) (1, 0) [(1, 0), (1, 0)] 0).2.1.2 =
        2 ∧
      (runTailCells (fun a b : Nat => a == b) (1, 0) [(1, 0), (1, 0)]
            0).2.2.map Prod.snd =
        [(1, 0), (1, 0)].map (fun x : Nat × Nat => x.2 + 1) ∧
      (runTailCells (fun a b : Nat => a == b) (1, 0) [(1, 0), (1, 0)]
            0).2.1.2 +
          ((runTailCells (fun a b : Nat => a == b) (1, 0) [(1, 0), (1, 0)]
                0).2.2.map Prod.snd).sum =
        4) :=
  ⟨rfl, minimal_comparisons_on_success (fun a b : Nat => a == b) (1, 0)
    [(1, 0), (1, 0)] rfl⟩

/-- C3: fail-fast — if running the N-ary comparison arm over only the first
`i` tail expressions already aborts with the mismatch triple at 1-based
index `i`, then running it over the full expression list produces exactly
the same outcome and the same final side-effect state: the expressions
strictly after index `i` are never evaluated (their thunks are never
applied, so the state is untouched by them) and never compared. -/
theorem fail_fast_no_later_evaluation (veq : α → α → Bool) (a l r : α)
    (i : Nat) (es : List (σ → α × σ)) (s : σ)
    (h : (runTailEff veq a (es.take i) s 0).1 = some (i, l, r)) :
    runTailEff veq a es s 0 = runTailEff veq a (es.take i) s 0 := by
  have hs : (runTailEff veq a (es.take i) s 0).1.isSome = true := by
    rw [h]; rfl
  calc runTailEff veq a es s 0
      = runTailEff veq a (es.take i ++ es.drop i) s 0 := by
        rw [List.take_append_drop]
    _ = runTailEff veq a (es.take i) s 0 :=
        runTailEff_append veq a (es.take i) (es.drop i) s 0 hs

theorem fail_fast_no_later_evaluation_witness :
    ((runTailEff (fun a b : Nat => a == b) 1
        (List.take 1 [fun s => (2, s + 1), fun s => (3, s + 10)]) 0 0).1 =
      some (1, 1, 2)) ∧
    runTailEff (fun a b : Nat => a == b) 1
        [fun s => (2, s + 1), fun s => (3, s + 10)] 0 0 =
      runTailEff (fun a b : Nat => a == b) 1
        (List.take 1 [fun s => (2, s + 1), fun s => (3, s + 10)]) 0 0 :=
  ⟨rfl, fail_fast_no_later_evaluation (fun a b : Nat => a == b) 1 1 2 1
    [fun s => (2, s + 1), fun s => (3, s + 10)] 0 rfl⟩

/-- C4: `assert_all_eq!` aborts if and only if some tail element is unequal
to the anchor. For every N ≥ 2 (both the two-value `assert_eq!` shortcut and
the N-ary arm, with or without a custom message), the invocation returns
normally exactly when every element equals the first; and there is only one
runtime outcome besides normal return, the single assertion-mismatch panic
carried in `Except.error`. -/
theorem aborts_iff_some_tail_mismatch (dbg : α → String)
    (veq : α → α → Bool) (first second : α) (rest : List α)
    (msg : Option String) :
    (assert_all_eq dbg veq first second rest msg = .ok () ↔
      ∀ x ∈ second :: rest, veq first x = true) ∧
    (assert_all_eq dbg veq first second rest msg = .ok () ∨
      ∃ e, assert_all_eq dbg veq first second rest msg = .error e) := by
  refine ⟨?_, exceptUnit_cases _⟩
  cases rest with
  | nil =>
    have hdisp : assert_all_eq dbg veq first second [] msg =
        assert_eq dbg veq first second msg := by
      cases msg <;> rfl
    rw [hdisp]
    cases hv : veq first second <;> simp [assert_eq, hv]
  | cons r rs =>
    cases msg with
    | none =>
      exact cmpLoop_ok_iff dbg veq first (second :: r :: rs) 0
    | some m =>
      exact cmpLoopMsg_ok_iff dbg veq (fun _ => m) first (second :: r :: rs) 0

theorem aborts_iff_some_tail_mismatch_witness :
    ((assert_all_eq Nat.repr (fun a b : Nat => a == b) 3 3 [3]
          Option.none = .ok () ↔
        ∀ x ∈ [3, 3], (3 == x) = true) ∧
      (assert_all_eq Nat.repr (fun a b : Nat => a == b) 3 3 [3]
            Option.none = .ok () ∨
        ∃ e, assert_all_eq Nat.repr (fun a b : Nat => a == b) 3 3 [3]
              Option.none = .error e)) :=
  aborts_iff_some_tail_mismatch Nat.repr (fun a b : Nat => a == b) 3 3 [3]
    Option.none

/-- C5: the custom-message closure `f = || format!($($arg)+)` is constructed
once per invocation of the message-carrying N-ary arm but invoked lazily: on
a successful run it is invoked zero times; on a failing run it is invoked
exactly once, and the rendered message is appended after a colon-space at
the end of the mismatched element's diagnostic line. -/
theorem lazy_message_production (dbg : α → String) (veq : α → α → Bool)
    (f : Unit → String) (a : α) (xs : List α) :
    ((cmpLoopMsg dbg veq f a xs 0).1 = .ok () →
      (cmpLoopMsg dbg veq f a xs 0).2 = 0) ∧
    (∀ e, (cmpLoopMsg dbg veq f a xs 0).1 = .error e →
      (cmpLoopMsg dbg veq f a xs 0).2 = 1 ∧
      ∃ i x, e = not_eq_fmt (dbg a) (dbg x) i (f ()) ∧
        e = not_eq (dbg a) (dbg x) i ++ ": " ++ f ()) := by
  refine ⟨cmpLoopMsg_ok_count dbg veq f a xs 0, ?_⟩
  intro e he
  obtain ⟨hc, i, x, hx⟩ := cmpLoopMsg_error_char dbg veq f a xs 0 e he
  exact ⟨hc, i, x, hx, hx.trans (not_eq_fmt_append _ _ _ _)⟩

theorem lazy_message_production_witness :
    (cmpLoopMsg Nat.repr (fun a b : Nat => a == b) (fun _ => "boom") 1 [1]
        0).2 = 0 ∧
    (cmpLoopMsg Nat.repr (fun a b : Nat => a == b) (fun _ => "boom") 1 [2]
        0).2 = 1 :=
  ⟨(lazy_message_production Nat.repr (fun a b : Nat => a == b)
      (fun _ => "boom") 1 [1]).1 rfl,
   ((lazy_message_production Nat.repr (fun a b : Nat => a == b)
      (fun _ => "boom") 1 [2]).2 (not_eq_fmt "1" "2" 1 "boom") rfl).1⟩

/-- C6: with exactly two expressions, `assert_all_eq!` dispatches to
`std::assert_eq!` (first conjunct, definitional for both message forms), and
this shortcut is equivalent to the general N-ary path at N = 2: identical
pass/fail outcome, success exactly when the two operands compare equal, and
on failure both diagnostics embed the debug renderings of both operands and
the custom message when one is supplied. -/
theorem two_value_delegation_equiv (dbg : α → String) (veq : α → α → Bool)
    (a b : α) (msg : Option String) :
    assert_all_eq dbg veq a b [] msg = assert_eq dbg veq a b msg ∧
    (assert_eq dbg veq a b msg).isOk = (nary_two dbg veq a b msg).isOk ∧
    ((assert_eq dbg veq a b msg).isOk = true ↔ veq a b = true) ∧
    (veq a b = false →
      ∃ e1 e2, assert_eq dbg veq a b msg = .error e1 ∧
        nary_two dbg veq a b msg = .error e2 ∧
        ContainsStr e1 (dbg a) ∧ ContainsStr e1 (dbg b) ∧
        ContainsStr e2 (dbg a) ∧ ContainsStr e2 (dbg b) ∧
        (∀ m, msg = some m → ContainsStr e1 m ∧ ContainsStr e2 m)) := by
  refine ⟨by cases msg <;> rfl, ?_, ?_, ?_⟩
  · cases msg <;> cases hv : veq a b <;>
      simp [assert_eq, nary_two, cmpLoop, cmpLoopMsg, hv, Except.isOk, Except.toBool]
  · cases hv : veq a b <;> simp [assert_eq, hv, Except.isOk, Except.toBool]
  · intro hv
    cases msg with
    | none =>
      refine ⟨assert_eq_diag (dbg a) (dbg b) none, not_eq (dbg a) (dbg b) 1,
        by simp [assert_eq, hv], by simp [nary_two, cmpLoop, hv],
        assert_eq_diag_contains_left _ _ _, assert_eq_diag_contains_right _ _ _,
        not_eq_contains_left _ _ _, not_eq_contains_right _ _ _, ?_⟩
      intro m hm
      cases hm
    | some m =>
      refine ⟨assert_eq_diag (dbg a) (dbg b) (some m),
        not_eq_fmt (dbg a) (dbg b) 1 m,
        by simp [assert_eq, hv], by simp [nary_two, cmpLoopMsg, hv],
        assert_eq_diag_contains_left _ _ _, assert_eq_diag_contains_right _ _ _,
        not_eq_fmt_contains_left _ _ _ _, not_eq_fmt_contains_right _ _ _ _, ?_⟩
      intro m' hm'
      cases hm'
      exact ⟨assert_eq_diag_contains_msg _ _ _, not_eq_fmt_contains_msg _ _ _ _⟩

theorem two_value_delegation_equiv_witness :
    (assert_all_eq Nat.repr (fun a b : Nat => a == b) 4 3 []
        (some "msg") =
      assert_eq Nat.repr (fun a b : Nat => a == b) 4 3 (some "msg")) ∧
    ((assert_eq Nat.repr (fun a b : Nat => a == b) 4 3 (some "msg")).isOk =
      (nary_two Nat.repr (fun a b : Nat => a == b) 4 3 (some "msg")).isOk) ∧
    ((assert_eq Nat.repr (fun a b : Nat => a == b) 4 3
          (some "msg")).isOk = true ↔
      (4 == 3) = true) ∧
    ((4 == 3) = false →
      ∃ e1 e2, assert_eq Nat.repr (fun a b : Nat => a == b) 4 3
            (some "msg") = .error e1 ∧
        nary_two Nat.repr (fun a b : Nat => a == b) 4 3 (some "msg") =
          .error e2 ∧
        ContainsStr e1 (Nat.repr 4) ∧ ContainsStr e1 (Nat.repr 3) ∧
        ContainsStr e2 (Nat.repr 4) ∧ ContainsStr e2 (Nat.repr 3) ∧
        (∀ m, (some "msg" : Option String) = some m →
          ContainsStr e1 m ∧ ContainsStr e2 m)) :=
  two_value_delegation_equiv Nat.repr (fun a b : Nat => a == b) 4 3
    (some "msg")

/-- C7: all accepted trailing-separator forms of a message-less invocation —
no separator, trailing comma, trailing semicolon, trailing
comma-then-semicolon — are semantically identical: any two of them accept
the invocation and produce the very same result (pass/fail outcome and
failure diagnostic), namely that of the canonical separator-free form. -/
theorem trailing_separator_equiv (dbg : α → String) (veq : α → α → Bool)
    (first second : α) (rest : List α) (s1 s2 : Sep) :
    assert_all_eq_sep dbg veq first second rest s1 Option.none =
      assert_all_eq_sep dbg veq first second rest s2 Option.none ∧
    assert_all_eq_sep dbg veq first second rest s1 Option.none =
      some (assert_all_eq dbg veq first second rest Option.none) := by
  cases s1 <;> cases s2 <;> exact ⟨rfl, rfl⟩

/-- C8: in the failure diagnostic built by `not_eq`, the padding before the
anchor's `0:` label is a run of spaces whose length equals the number of
characters of the decimal rendering of the failing index `i`; consequently
the anchor line's label `0:` (one space-padded column block `pad ++ "0:"`)
has exactly the same width as the mismatch line's leading block
`" " ++ i ++ ":"`, i.e. `0:` is right-aligned under `i:`. -/
theorem pad_right_aligned (i : Nat) (dl dr : String) :
    (∀ c ∈ (padStr (Nat.repr i).length).data, c = ' ') ∧
    (padStr (Nat.repr i).length).length = (Nat.repr i).length ∧
    (padStr (Nat.repr i).length ++ "0:").length =
      (" " ++ Nat.repr i ++ ":").length ∧
    not_eq dl dr i =
      not_eq_header i ++ "\n" ++ padStr (Nat.repr i).length ++ "0: `" ++ dl ++
        "`,\n " ++ Nat.repr i ++ ": `" ++ dr ++ "`" := by
  refine ⟨padStr_spaces _, padStr_length _, ?_, rfl⟩
  have h0 : ("0:" : String).length = 2 := rfl
  have h1 : (" " : String).length = 1 := rfl
  have h2 : (":" : String).length = 1 := rfl
  simp [String.length_append, padStr_length, h0, h1, h2]
  omega

theorem pad_right_aligned_witness :
    (∀ c ∈ (padStr (Nat.repr 12).length).data, c = ' ') ∧
    (padStr (Nat.repr 12).length).length = (Nat.repr 12).length ∧
    (padStr (Nat.repr 12).length ++ "0:").length =
      (" " ++ Nat.repr 12 ++ ":").length ∧
    not_eq "a" "b" 12 =
      not_eq_header 12 ++ "\n" ++ padStr (Nat.repr 12).length ++ "0: `" ++
        "a" ++ "`,\n " ++ Nat.repr 12 ++ ": `" ++ "b" ++ "`" :=
  pad_right_aligned 12 "a" "b"

/-- C9: `debug_assert_all_eq!` forwards its entire argument list unchanged to
`assert_all_eq!` when debug assertions are enabled (identical grammar and
semantics), and when the flag is off the invocation is entirely elided: it
returns normally with no possibility of abort, and the side-effect state is
exactly the initial one — no argument expression is evaluated and no
comparison is performed. -/
theorem debug_variant_gating (debugAssertions : Bool) (veq : α → α → Bool)
    (e0 : σ → α × σ) (es : List (σ → α × σ)) (s : σ) :
    (debugAssertions = true →
      debug_assert_all_eq_eff debugAssertions veq e0 es s =
        assert_all_eq_eff veq e0 es s) ∧
    (debugAssertions = false →
      debug_assert_all_eq_eff debugAssertions veq e0 es s = (none, s)) := by
  cases debugAssertions <;> simp [debug_assert_all_eq_eff]

theorem debug_variant_gating_witness :
    ((false = true →
      debug_assert_all_eq_eff false (fun a b : Nat => a == b)
          (fun s => (1, s + 100)) [fun s => (2, s + 1000)] 0 =
        assert_all_eq_eff (fun a b : Nat => a == b)
          (fun s => (1, s + 100)) [fun s => (2, s + 1000)] 0) ∧
    (false = false →
      debug_assert_all_eq_eff false (fun a b : Nat => a == b)
          (fun s => (1, s + 100)) [fun s => (2, s + 1000)] 0 =
        (none, 0))) ∧
    debug_assert_all_eq_eff false (fun a b : Nat => a == b)
        (fun s => (1, s + 100)) [fun s => (2, s + 1000)] 0 = (none, 0) :=
  ⟨debug_variant_gating false (fun a b : Nat => a == b)
      (fun s => (1, s + 100)) [fun s => (2, s + 1000)] 0,
   (debug_variant_gating false (fun a b : Nat => a == b)
      (fun s => (1, s + 100)) [fun s => (2, s + 1000)] 0).2 rfl⟩

/-- C10: the N-ary comparison arm only borrows its arguments: running it over
an anchor and tail of cells (value paired with the counter its own equality
implementation mutates) changes no value component, consumes no element
(same tail length), and leaves every argument usable afterwards — the only
difference between the cells before and after is whatever the type's own
equality side effects (the counters) did. -/
theorem arguments_only_borrowed (veq : β → β → Bool) (a : β × Nat)
    (xs : List (β × Nat)) :
    (runTailCells veq a xs 0).2.1.1 = a.1 ∧
    (runTailCells veq a xs 0).2.2.map Prod.fst = xs.map Prod.fst ∧
    (runTailCells veq a xs 0).2.2.length = xs.length :=
  runTailCells_values veq xs a 0

end AssertAllEq
